import Mathlib

/-! Shallow embedding of the semantic retrieval subsystem of the Defense
repository (src/semantic_search.py with the clip schema of
src/analytics_db.py): text projection of clip records, the embedding
cache, cosine-similarity ranking, and the search / rebuild orchestrators,
together with proofs settling the specification claims. -/

/-- A clip metadata record as returned by fetch_clips (a sqlite row as a
dict).  Only the fields read by the text projector are kept; TEXT columns
are Option String, INTEGER columns are Option Int, and a NULL / missing
value is none.  The id column is TEXT PRIMARY KEY, hence a plain String. -/
structure Clip where
  id : String := ""
  game_id : Option Int := none
  opponent : Option String := none
  quarter : Option Int := none
  possession : Option Int := none
  situation : Option String := none
  formation : Option String := none
  play_name : Option String := none
  play_trigger : Option String := none
  action_trigger : Option String := none
  action_types : Option String := none
  action_sequence : Option String := none
  scout_coverage : Option String := none
  coverage : Option String := none
  ball_screen : Option String := none
  off_ball_screen : Option String := none
  help_rotation : Option String := none
  disruption : Option String := none
  breakdown : Option String := none
  result : Option String := none
  shooter : Option String := none
  shot_location : Option String := none
  shot_result : Option String := none
  points : Option Int := none
  rebound : Option String := none
  contest : Option String := none
  paint_touch : Option String := none
  notes : Option String := none
  deriving DecidableEq

/-- Python truthiness of clip.get applied to a TEXT column: None and the
empty string are falsy. -/
def truthyS : Option String → Bool
  | none => false
  | some s => s != ""

/-- Python truthiness of clip.get applied to an INTEGER column: None and 0
are falsy. -/
def truthyI : Option Int → Bool
  | none => false
  | some n => n != 0

/-- Python `a or b` on two optional strings: the first operand when it is
truthy, otherwise the second operand (whatever its truthiness). -/
def orTruthyS (a b : Option String) : Option String :=
  if truthyS a then a else b

/-- Conditional append of one rendered segment: models the Python pattern
`if guard: parts.append(seg)`, contributing [seg] when the guard holds and
nothing otherwise. -/
def condSeg (b : Bool) (s : String) : List String :=
  if b then [s] else []

/-- Translation of get_clip_text_representation (src/semantic_search.py
lines 25-97): one guarded append per field, in the source order, of the
rendered segment; the accumulated parts are joined with " | ". -/
def get_clip_text_representation (clip : Clip) : String :=
  let trigger_value := orTruthyS clip.play_trigger clip.action_trigger
  String.intercalate " | " (List.flatten
    [ condSeg (truthyI clip.game_id) ("Game " ++ toString (clip.game_id.getD 0))
    , condSeg (truthyS clip.opponent) ("vs " ++ clip.opponent.getD "")
    , condSeg (truthyI clip.quarter) ("Q" ++ toString (clip.quarter.getD 0))
    , condSeg (truthyI clip.possession) ("Possession " ++ toString (clip.possession.getD 0))
    , condSeg (truthyS clip.situation) ("Situation: " ++ clip.situation.getD "")
    , condSeg (truthyS clip.formation) ("Formation: " ++ clip.formation.getD "")
    , condSeg (truthyS clip.play_name) ("Play: " ++ clip.play_name.getD "")
    , condSeg (truthyS trigger_value) ("Trigger: " ++ trigger_value.getD "")
    , condSeg (truthyS clip.action_types) ("Actions: " ++ clip.action_types.getD "")
    , condSeg (truthyS clip.action_sequence) ("Sequence: " ++ clip.action_sequence.getD "")
    , condSeg (truthyS clip.scout_coverage) ("Scout Coverage: " ++ clip.scout_coverage.getD "")
    , condSeg (truthyS clip.coverage) ("Coverage: " ++ clip.coverage.getD "")
    , condSeg (truthyS clip.ball_screen) ("Ball Screen: " ++ clip.ball_screen.getD "")
    , condSeg (truthyS clip.off_ball_screen) ("Off Ball Screen: " ++ clip.off_ball_screen.getD "")
    , condSeg (truthyS clip.help_rotation) ("Help: " ++ clip.help_rotation.getD "")
    , condSeg (truthyS clip.disruption) ("Disruption: " ++ clip.disruption.getD "")
    , condSeg (truthyS clip.breakdown) ("Breakdown: " ++ clip.breakdown.getD "")
    , condSeg (truthyS clip.result) ("Result: " ++ clip.result.getD "")
    , condSeg (truthyS clip.shooter) ("Shooter: " ++ clip.shooter.getD "")
    , condSeg (truthyS clip.shot_location) ("Shot Location: " ++ clip.shot_location.getD "")
    , condSeg (truthyS clip.shot_result) ("Shot Result: " ++ clip.shot_result.getD "")
    , condSeg (truthyI clip.points) (toString (clip.points.getD 0) ++ " points")
    , condSeg (truthyS clip.rebound) ("Rebound: " ++ clip.rebound.getD "")
    , condSeg (truthyS clip.contest) ("Contest: " ++ clip.contest.getD "")
    , condSeg (truthyS clip.paint_touch) ("Paint Touch: " ++ clip.paint_touch.getD "")
    , condSeg (truthyS clip.notes) ("Notes: " ++ clip.notes.getD "")
    ])

/-- One optional segment for a TEXT field: rendered by prefixing the given
label text when the field is truthy, omitted otherwise. -/
def segS (label : String) (x : Option String) : Option String :=
  if truthyS x then some (label ++ x.getD "") else none

/-- One optional segment for an INTEGER field: the label text followed by
the number's natural string form, when the field is truthy. -/
def segI (label : String) (x : Option Int) : Option String :=
  if truthyI x then some (label ++ toString (x.getD 0)) else none

/-- The projector's fields in their fixed order, each rendered to an
optional segment: the segment-list view of the projection. -/
def clipSegments (clip : Clip) : List (Option String) :=
  [ segI "Game " clip.game_id
  , segS "vs " clip.opponent
  , segI "Q" clip.quarter
  , segI "Possession " clip.possession
  , segS "Situation: " clip.situation
  , segS "Formation: " clip.formation
  , segS "Play: " clip.play_name
  , segS "Trigger: " (orTruthyS clip.play_trigger clip.action_trigger)
  , segS "Actions: " clip.action_types
  , segS "Sequence: " clip.action_sequence
  , segS "Scout Coverage: " clip.scout_coverage
  , segS "Coverage: " clip.coverage
  , segS "Ball Screen: " clip.ball_screen
  , segS "Off Ball Screen: " clip.off_ball_screen
  , segS "Help: " clip.help_rotation
  , segS "Disruption: " clip.disruption
  , segS "Breakdown: " clip.breakdown
  , segS "Result: " clip.result
  , segS "Shooter: " clip.shooter
  , segS "Shot Location: " clip.shot_location
  , segS "Shot Result: " clip.shot_result
  , if truthyI clip.points then some (toString (clip.points.getD 0) ++ " points") else none
  , segS "Rebound: " clip.rebound
  , segS "Contest: " clip.contest
  , segS "Paint Touch: " clip.paint_touch
  , segS "Notes: " clip.notes ]

/-- The projection written the way the spec describes it: every present
field rendered to its segment, absent fields dropped, all joined by " | ". -/
def projectSegments (clip : Clip) : String :=
  String.intercalate " | " ((clipSegments clip).filterMap id)

/-- Map a falsy TEXT value (the empty string) to an absent value. -/
def normStr : Option String → Option String
  | none => none
  | some s => if s = "" then none else some s

/-- Map a falsy INTEGER value (0) to an absent value. -/
def normInt : Option Int → Option Int
  | none => none
  | some n => if n = 0 then none else some n

/-- Replace every falsy projector-field value of a clip by an absent one. -/
def normalizeClip (c : Clip) : Clip :=
  { c with
    game_id := normInt c.game_id
    opponent := normStr c.opponent
    quarter := normInt c.quarter
    possession := normInt c.possession
    situation := normStr c.situation
    formation := normStr c.formation
    play_name := normStr c.play_name
    play_trigger := normStr c.play_trigger
    action_trigger := normStr c.action_trigger
    action_types := normStr c.action_types
    action_sequence := normStr c.action_sequence
    scout_coverage := normStr c.scout_coverage
    coverage := normStr c.coverage
    ball_screen := normStr c.ball_screen
    off_ball_screen := normStr c.off_ball_screen
    help_rotation := normStr c.help_rotation
    disruption := normStr c.disruption
    breakdown := normStr c.breakdown
    result := normStr c.result
    shooter := normStr c.shooter
    shot_location := normStr c.shot_location
    shot_result := normStr c.shot_result
    points := normInt c.points
    rebound := normStr c.rebound
    contest := normStr c.contest
    paint_touch := normStr c.paint_touch
    notes := normStr c.notes }

/-- The exact value of np.dot(v1, v2): the sum of pairwise products (numpy
dot of equal-length 1-d arrays). -/
def dotQ (v1 v2 : List ℚ) : ℚ := (List.zipWith (fun a b => a * b) v1 v2).sum

/-- The square of np.linalg.norm v: the dot product of v with itself. -/
def normSq (v : List ℚ) : ℚ := dotQ v v

/-- The float np.dot(v1,v2) / (np.linalg.norm(v1) * np.linalg.norm(v2))
kept in exact form: num is the dot product and denSq the product of the two
squared norms, so the denoted value is num / sqrt denSq.  The float is NaN
exactly when the denominator is zero, because a zero norm forces the dot
product to be zero as well, giving numpy's 0.0 / 0.0 = nan (no exception is
raised; numpy only emits a warning). -/
structure Score where
  num : ℚ
  denSq : ℚ
  deriving DecidableEq

/-- cosine_similarity (src/semantic_search.py lines 159-163), in the exact
representation. -/
def cosine_similarity (v1 v2 : List ℚ) : Score :=
  { num := dotQ v1 v2, denSq := normSq v1 * normSq v2 }

/-- Whether the float value of the score is NaN: its denominator is zero. -/
def Score.isNaN (s : Score) : Bool := decide (s.denSq = 0)

/-- Python float `<` on the denoted values of two scores: every comparison
involving NaN is false; otherwise num1 / sqrt denSq1 < num2 / sqrt denSq2,
expressed over ℚ by sign analysis and squaring (see Score.lt_iff_val). -/
def Score.lt (s t : Score) : Bool :=
  if s.denSq = 0 ∨ t.denSq = 0 then false
  else if s.num < 0 then
    (if 0 ≤ t.num then true else decide (t.num ^ 2 * s.denSq < s.num ^ 2 * t.denSq))
  else
    (if t.num < 0 then false else decide (s.num ^ 2 * t.denSq < t.num ^ 2 * s.denSq))

/-- The real number denoted by a score (meaningful when 0 < denSq). -/
noncomputable def Score.val (s : Score) : ℝ :=
  (s.num : ℝ) / Real.sqrt (s.denSq : ℝ)

/-- Stable insertion of x into an ascending list using only the strict
comparison lt, as CPython's sort does: x is placed before the first
element y with lt x y = true, hence after every element x compares false
against (equal keys and NaN-incomparable keys alike). -/
def pyInsert {α : Type} (lt : α → α → Bool) (x : α) : List α → List α
  | [] => [x]
  | y :: ys => if lt x y then x :: y :: ys else y :: pyInsert lt x ys

/-- Stable ascending sort by successive insertion, processing the input
left to right; for a total strict order on the keys this is the unique
stable ascending sort (what CPython's list.sort produces), and an element
whose comparisons are all false keeps its position. -/
def pySortAsc {α : Type} (lt : α → α → Bool) (l : List α) : List α :=
  l.foldl (fun acc x => pyInsert lt x acc) []

/-- CPython's list.sort(key, reverse=True): reverse the list, sort it in
ascending key order stably, reverse again. -/
def pySortRev {α : Type} (lt : α → α → Bool) (l : List α) : List α :=
  (pySortAsc lt l.reverse).reverse

/-- The comparison semantic_search sorts by: the similarity score (pair
second component), under Python float less-than. -/
def simLt (p q : String × Score) : Bool := Score.lt p.2 q.2

/-- The similarities list of semantic_search lines 200-203: one
(clip id, cosine similarity to the query) pair per cache entry, in cache
iteration (= insertion) order. -/
def simsOf (qv : List ℚ) (corpus : List (String × List ℚ)) : List (String × Score) :=
  corpus.map (fun p => (p.1, cosine_similarity qv p.2))

/-- The ranking step of semantic_search (lines 200-207): score every cache
entry, sort descending by score with Python's stable reverse sort, and
keep the first top_k entries. -/
def rank (qv : List ℚ) (corpus : List (String × List ℚ)) (top_k : ℕ) :
    List (String × Score) :=
  (pySortRev simLt (simsOf qv corpus)).take top_k

/-- Float equality of two score keys, written with the Python comparison:
neither is less than the other and neither is NaN-incomparable in the
less-than direction.  This is the tie relation of the sort. -/
def Score.eqv (s t : Score) : Bool := !(Score.lt s t) && !(Score.lt t s)

/-- The exceptions the Python search / rebuild paths can raise. -/
inductive Err where
  | importError
  | noApiKey
  | jsonDecode
  | storeFailure (msg : String)
  | providerFailure (msg : String)
  | indexError
  deriving DecidableEq

/-- str(e) for the exceptions above, as rebuild_embeddings reports them. -/
def errString : Err → String
  | .importError => "OpenAI library not available"
  | .noApiKey => "OPENAI_API_KEY environment variable not set"
  | .jsonDecode => "Expecting value: line 1 column 1 (char 0)"
  | .storeFailure m => m
  | .providerFailure m => m
  | .indexError => "list index out of range"

/-- The persisted embeddings file: missing, present but unparseable, or a
parsed mapping from clip id to vector (in JSON object insertion order). -/
inductive CacheFile where
  | absent
  | corrupt
  | stored (m : List (String × List ℚ))
  deriving DecidableEq

/-- One embeddings request to the OpenAI client: the ordered input texts
of a client.embeddings.create call. -/
inductive PCall where
  | embed (texts : List String)
  deriving DecidableEq

/-- The world the subsystem runs against: import and credential state, the
persisted cache, the metadata store's response to fetch_clips, and the
embedding provider's response for each input batch. -/
structure Env where
  openai_available : Bool
  api_key : Option String
  cache : CacheFile
  clipsResult : Except String (List Clip)
  embedBatch : List String → Except String (List (List ℚ))

/-- load_embeddings (src/semantic_search.py lines 151-156): a missing file
is None; a present file is parsed by json.load, whose failure on a corrupt
file is an uncaught exception. -/
def load_embeddings (cache : CacheFile) :
    Except Err (Option (List (String × List ℚ))) :=
  match cache with
  | .absent => .ok none
  | .corrupt => .error .jsonDecode
  | .stored m => .ok (some m)

/-- save_embeddings (lines 143-148): the whole mapping is serialised and
replaces the persisted file. -/
def save_embeddings (m : List (String × List ℚ)) : CacheFile :=
  .stored m

/-- Python falsiness of the loaded embeddings object: None or an empty
mapping. -/
def falsyM (m : Option (List (String × List ℚ))) : Bool :=
  match m with
  | none => true
  | some l => l.isEmpty

/-- generate_embeddings_for_all_clips (lines 100-140): availability and
credential checks, fetch_clips, one batched provider call when there is at
least one clip, and the id-to-vector zip; paired with the provider calls
that were made. -/
def generate_embeddings_for_all_clips (env : Env) :
    Except Err (List (String × List ℚ)) × List PCall :=
  if env.openai_available = false then (.error .importError, [])
  else if truthyS env.api_key = false then (.error .noApiKey, [])
  else
    match env.clipsResult with
    | .error m => (.error (.storeFailure m), [])
    | .ok clips =>
      let texts := clips.map get_clip_text_representation
      let ids := clips.map (fun c => c.id)
      if texts.isEmpty then (.ok [], [])
      else
        match env.embedBatch texts with
        | .error m => (.error (.providerFailure m), [.embed texts])
        | .ok vecs =>
          if vecs.length ≤ ids.length then (.ok (ids.zip vecs), [.embed texts])
          else (.error .indexError, [.embed texts])

/-- A search result row: the clip dict with similarity_score added. -/
structure RankedClip where
  clip : Clip
  similarity_score : Score
  deriving DecidableEq

instance {e a : Type} [DecidableEq e] [DecidableEq a] : DecidableEq (Except e a) :=
  fun x y =>
    match x, y with
    | .ok v, .ok w =>
      decidable_of_iff (v = w) (by constructor
                                   · intro h
                                     rw [h]
                                   · intro h
                                     injection h)
    | .error v, .error w =>
      decidable_of_iff (v = w) (by constructor
                                   · intro h
                                     rw [h]
                                   · intro h
                                     injection h)
    | .ok _, .error _ => isFalse (fun h => Except.noConfusion h)
    | .error _, .ok _ => isFalse (fun h => Except.noConfusion h)

/-- The observable outcome of semantic_search: the returned value or the
raised exception, the state of the persisted cache afterwards, and the
provider calls made, in order. -/
structure SearchOut where
  result : Except Err (List RankedClip)
  cache : CacheFile
  calls : List PCall
  deriving DecidableEq

/-- The dict {clip['id']: clip} of lines 210-211 (a later duplicate key
overrides an earlier one) queried at one key. -/
def dictGet (clips : List Clip) (i : String) : Option Clip :=
  (clips.filter (fun c => c.id == i)).getLast?

/-- The tail of semantic_search once the cache mapping is settled (lines
191-220): embed the query (one provider call), rank, re-fetch the clips,
and join ranked ids back to current records, dropping ids that do not
resolve and attaching scores. -/
def afterCache (env : Env) (query : String) (top_k : ℕ)
    (embs : List (String × List ℚ)) (cache' : CacheFile) (calls : List PCall) :
    SearchOut :=
  match env.embedBatch [query] with
  | .error m => ⟨.error (.providerFailure m), cache', calls ++ [.embed [query]]⟩
  | .ok qvecs =>
    match qvecs with
    | [] => ⟨.error .indexError, cache', calls ++ [.embed [query]]⟩
    | qv :: _ =>
      let top := rank qv embs top_k
      match env.clipsResult with
      | .error m => ⟨.error (.storeFailure m), cache', calls ++ [.embed [query]]⟩
      | .ok clips =>
        let results := top.filterMap (fun p =>
          (dictGet clips p.1).map (fun c => RankedClip.mk c p.2))
        ⟨.ok results, cache', calls ++ [.embed [query]]⟩

/-- semantic_search (lines 166-220): import and credential checks, cache
load, rebuild-and-save when the loaded object is falsy (None or empty),
then the query embedding, ranking and join. -/
def semantic_search (env : Env) (query : String) (top_k : ℕ) : SearchOut :=
  if env.openai_available = false then ⟨.error .importError, env.cache, []⟩
  else if truthyS env.api_key = false then ⟨.error .noApiKey, env.cache, []⟩
  else
    match load_embeddings env.cache with
    | .error e => ⟨.error e, env.cache, []⟩
    | .ok loaded =>
      if falsyM loaded then
        match generate_embeddings_for_all_clips env with
        | (.error e, calls) => ⟨.error e, env.cache, calls⟩
        | (.ok m, calls) => afterCache env query top_k m (save_embeddings m) calls
      else afterCache env query top_k (loaded.getD []) env.cache []

/-- The dict returned by rebuild_embeddings: success with a count and
message, or failure with str(e). -/
inductive RebuildResult where
  | success (count : ℕ) (message : String)
  | failure (error : String)
  deriving DecidableEq

/-- rebuild_embeddings (lines 223-240): regenerate and save inside
try/except; any exception is caught and reported as a failure dict,
leaving the previously persisted cache in place. -/
def rebuild_embeddings (env : Env) : RebuildResult × CacheFile × List PCall :=
  match generate_embeddings_for_all_clips env with
  | (.ok m, calls) =>
    (.success m.length ("Successfully generated " ++ toString m.length ++ " embeddings"),
      save_embeddings m, calls)
  | (.error e, calls) => (.failure (errString e), env.cache, calls)

/-- A concrete world with a valid one-entry cache: provider available, key
set, store empty, every provider call answered with one unit vector. -/
def envOneEntry : Env :=
  { openai_available := true
    api_key := some "k"
    cache := .stored [("a", [1])]
    clipsResult := .ok []
    embedBatch := fun _ => .ok [[1]] }

/-- The same world with a corrupt persisted cache. -/
def envCorrupt : Env :=
  { envOneEntry with cache := .corrupt }

/-- A world in which the metadata store fails during rebuild. -/
def envStoreDown : Env :=
  { envOneEntry with clipsResult := .error "db down" }

/-- A store record named "a", used by the orphan-tolerance scenario. -/
def clipA : Clip :=
  { id := "a", opponent := some "Duke" }

/-- A world whose cache holds an orphaned id "ghost" besides "a", while
the store only has the record "a". -/
def envOrphan : Env :=
  { openai_available := true
    api_key := some "k"
    cache := .stored [("ghost", [1]), ("a", [1])]
    clipsResult := .ok [clipA]
    embedBatch := fun _ => .ok [[1]] }

/-- A world whose persisted cache exists but holds the empty mapping, with
one store record available for the rebuild. -/
def envEmptyCache : Env :=
  { openai_available := true
    api_key := some "k"
    cache := .stored []
    clipsResult := .ok [clipA]
    embedBatch := fun _ => .ok [[1]] }

theorem toList_segS (label : String) (x : Option String) :
    (segS label x).toList = condSeg (truthyS x) (label ++ x.getD "") := by
  unfold segS condSeg; split <;> rfl

theorem toList_segI (label : String) (x : Option Int) :
    (segI label x).toList = condSeg (truthyI x) (label ++ toString (x.getD 0)) := by
  unfold segI condSeg; split <;> rfl

theorem toList_ite_some (b : Bool) (s : String) :
    (if b then some s else none : Option String).toList = condSeg b s := by
  unfold condSeg; split <;> rfl

theorem filterMap_id_eq_flatten (l : List (Option String)) :
    l.filterMap id = (l.map Option.toList).flatten := by
  induction l with
  | nil => rfl
  | cons o t ih => cases o <;> simp [ih]

/-- The accumulated-parts projection agrees with its segment-list view. -/
theorem project_eq_segments (clip : Clip) :
    get_clip_text_representation clip = projectSegments clip := by
  unfold get_clip_text_representation projectSegments clipSegments
  rw [filterMap_id_eq_flatten]
  simp only [List.map_cons, List.map_nil, toList_segS, toList_segI, toList_ite_some]

theorem truthyS_normStr (x : Option String) : truthyS (normStr x) = truthyS x := by
  cases x with
  | none => rfl
  | some s => by_cases h : s = "" <;> simp [normStr, truthyS, h]

theorem getD_normStr (x : Option String) : (normStr x).getD "" = x.getD "" := by
  cases x with
  | none => rfl
  | some s => by_cases h : s = "" <;> simp [normStr, h]

theorem truthyI_normInt (x : Option Int) : truthyI (normInt x) = truthyI x := by
  cases x with
  | none => rfl
  | some n => by_cases h : n = 0 <;> simp [normInt, truthyI, h]

theorem getD_normInt (x : Option Int) : (normInt x).getD 0 = x.getD 0 := by
  cases x with
  | none => rfl
  | some n => by_cases h : n = 0 <;> simp [normInt, h]

theorem orTruthyS_normStr (a b : Option String) :
    orTruthyS (normStr a) (normStr b) = normStr (orTruthyS a b) := by
  unfold orTruthyS
  rw [truthyS_normStr]
  split <;> rfl

/-- The rational sign-and-square comparison in Score.lt agrees with the
numeric order of the denoted real values num / sqrt denSq. -/
theorem Score.lt_iff_val (s t : Score) (hs : 0 < s.denSq) (ht : 0 < t.denSq) :
    Score.lt s t = true ↔ s.val < t.val := by
  have hsR : (0:ℝ) < (s.denSq : ℝ) := by exact_mod_cast hs
  have htR : (0:ℝ) < (t.denSq : ℝ) := by exact_mod_cast ht
  have hss : 0 < Real.sqrt (s.denSq : ℝ) := Real.sqrt_pos.mpr hsR
  have hts : 0 < Real.sqrt (t.denSq : ℝ) := Real.sqrt_pos.mpr htR
  have hval : (s.val < t.val) ↔
      (s.num : ℝ) * Real.sqrt (t.denSq : ℝ) < (t.num : ℝ) * Real.sqrt (s.denSq : ℝ) := by
    unfold Score.val
    exact div_lt_div_iff₀ hss hts
  rw [hval]
  unfold Score.lt
  rw [if_neg (by push_neg; exact ⟨ne_of_gt hs, ne_of_gt ht⟩)]
  by_cases ha : s.num < 0
  · rw [if_pos ha]
    by_cases hc : (0:ℚ) ≤ t.num
    · rw [if_pos hc]
      have h1 : (s.num : ℝ) * Real.sqrt (t.denSq:ℝ) < 0 :=
        mul_neg_of_neg_of_pos (by exact_mod_cast ha) hts
      have h2 : (0:ℝ) ≤ (t.num:ℝ) * Real.sqrt (s.denSq:ℝ) :=
        mul_nonneg (by exact_mod_cast hc) hss.le
      exact iff_of_true rfl (lt_of_lt_of_le h1 h2)
    · rw [if_neg hc]
      push_neg at hc
      rw [decide_eq_true_eq]
      have haR : (s.num : ℝ) < 0 := by exact_mod_cast ha
      have hcR : (t.num : ℝ) < 0 := by exact_mod_cast hc
      have key : ((-(t.num:ℝ)) * Real.sqrt (s.denSq:ℝ)) ^ 2 <
            ((-(s.num:ℝ)) * Real.sqrt (t.denSq:ℝ)) ^ 2 ↔
          (-(t.num:ℝ)) * Real.sqrt (s.denSq:ℝ) < (-(s.num:ℝ)) * Real.sqrt (t.denSq:ℝ) :=
        pow_lt_pow_iff_left₀
          (mul_nonneg (by linarith) hss.le) (mul_nonneg (by linarith) hts.le) (by norm_num)
      have expand : ((-(t.num:ℝ)) * Real.sqrt (s.denSq:ℝ)) ^ 2 = (t.num:ℝ) ^ 2 * (s.denSq:ℝ) := by
        rw [mul_pow, neg_sq, Real.sq_sqrt hsR.le]
      have expand2 : ((-(s.num:ℝ)) * Real.sqrt (t.denSq:ℝ)) ^ 2 = (s.num:ℝ) ^ 2 * (t.denSq:ℝ) := by
        rw [mul_pow, neg_sq, Real.sq_sqrt htR.le]
      rw [expand, expand2] at key
      constructor
      · intro h
        have hR : (t.num:ℝ) ^ 2 * (s.denSq:ℝ) < (s.num:ℝ) ^ 2 * (t.denSq:ℝ) := by
          exact_mod_cast h
        have := key.mp hR
        linarith
      · intro h
        have hR := key.mpr (by linarith)
        exact_mod_cast hR
  · rw [if_neg ha]
    push_neg at ha
    by_cases hc : t.num < 0
    · rw [if_pos hc]
      have h1 : (t.num : ℝ) * Real.sqrt (s.denSq:ℝ) < 0 :=
        mul_neg_of_neg_of_pos (by exact_mod_cast hc) hss
      have h2 : (0:ℝ) ≤ (s.num:ℝ) * Real.sqrt (t.denSq:ℝ) :=
        mul_nonneg (by exact_mod_cast ha) hts.le
      exact iff_of_false (by simp) (by push_neg; linarith)
    · rw [if_neg hc]
      push_neg at hc
      rw [decide_eq_true_eq]
      have haR : (0:ℝ) ≤ (s.num : ℝ) := by exact_mod_cast ha
      have hcR : (0:ℝ) ≤ (t.num : ℝ) := by exact_mod_cast hc
      have key : ((s.num:ℝ) * Real.sqrt (t.denSq:ℝ)) ^ 2 <
            ((t.num:ℝ) * Real.sqrt (s.denSq:ℝ)) ^ 2 ↔
          (s.num:ℝ) * Real.sqrt (t.denSq:ℝ) < (t.num:ℝ) * Real.sqrt (s.denSq:ℝ) :=
        pow_lt_pow_iff_left₀
          (mul_nonneg haR hts.le) (mul_nonneg hcR hss.le) (by norm_num)
      have expand : ((s.num:ℝ) * Real.sqrt (t.denSq:ℝ)) ^ 2 = (s.num:ℝ) ^ 2 * (t.denSq:ℝ) := by
        rw [mul_pow, Real.sq_sqrt htR.le]
      have expand2 : ((t.num:ℝ) * Real.sqrt (s.denSq:ℝ)) ^ 2 = (t.num:ℝ) ^ 2 * (s.denSq:ℝ) := by
        rw [mul_pow, Real.sq_sqrt hsR.le]
      rw [expand, expand2] at key
      constructor
      · intro h
        exact key.mp (by exact_mod_cast h)
      · intro h
        exact_mod_cast key.mpr h

theorem Score.lt_asymm {s t : Score} (hs : 0 < s.denSq) (ht : 0 < t.denSq)
    (h : Score.lt s t = true) : Score.lt t s = false := by
  rw [Bool.eq_false_iff]
  intro hcon
  have h1 := (Score.lt_iff_val s t hs ht).mp h
  have h2 := (Score.lt_iff_val t s ht hs).mp hcon
  linarith

theorem Score.lt_trans' {s t u : Score} (hs : 0 < s.denSq) (ht : 0 < t.denSq)
    (hu : 0 < u.denSq) (h1 : Score.lt s t = true) (h2 : Score.lt t u = true) :
    Score.lt s u = true := by
  rw [Score.lt_iff_val s u hs hu]
  have v1 := (Score.lt_iff_val s t hs ht).mp h1
  have v2 := (Score.lt_iff_val t u ht hu).mp h2
  linarith

theorem Score.val_eq_of_not_lt {s t : Score} (hs : 0 < s.denSq) (ht : 0 < t.denSq)
    (h1 : Score.lt s t = false) (h2 : Score.lt t s = false) : s.val = t.val := by
  have v1 : ¬ s.val < t.val := fun hv =>
    Bool.false_ne_true (h1 ▸ ((Score.lt_iff_val s t hs ht).mpr hv).symm ▸ rfl)
  have v2 : ¬ t.val < s.val := fun hv =>
    Bool.false_ne_true (h2 ▸ ((Score.lt_iff_val t s ht hs).mpr hv).symm ▸ rfl)
  linarith

theorem Score.lt_false_iff {s t : Score} (hs : 0 < s.denSq) (ht : 0 < t.denSq) :
    Score.lt s t = false ↔ t.val ≤ s.val := by
  constructor
  · intro h
    by_contra hv
    push_neg at hv
    have := (Score.lt_iff_val s t hs ht).mpr hv
    rw [h] at this
    exact Bool.false_ne_true this
  · intro h
    rw [Bool.eq_false_iff]
    intro hcon
    have := (Score.lt_iff_val s t hs ht).mp hcon
    linarith

theorem mem_pyInsert {α : Type} (lt : α → α → Bool) (x a : α) (l : List α) :
    a ∈ pyInsert lt x l ↔ a = x ∨ a ∈ l := by
  induction l with
  | nil => simp [pyInsert]
  | cons y ys ih =>
    by_cases h : lt x y
    · simp [pyInsert, h]
    · simp [pyInsert, h, ih]
      tauto

theorem pyInsert_perm {α : Type} (lt : α → α → Bool) (x : α) (l : List α) :
    (pyInsert lt x l).Perm (x :: l) := by
  induction l with
  | nil => exact List.Perm.refl _
  | cons y ys ih =>
    by_cases h : lt x y
    · simp [pyInsert, h]
    · rw [pyInsert, if_neg (by simp [h])]
      exact (ih.cons y).trans (List.Perm.swap x y ys)

theorem pySortAsc_aux_perm {α : Type} (lt : α → α → Bool) (l acc : List α) :
    (l.foldl (fun a x => pyInsert lt x a) acc).Perm (acc ++ l) := by
  induction l generalizing acc with
  | nil => simp
  | cons x xs ih =>
    refine (ih (pyInsert lt x acc)).trans ?_
    refine (((pyInsert_perm lt x acc).append_right xs).trans ?_)
    exact List.perm_middle.symm

theorem pySortAsc_perm {α : Type} (lt : α → α → Bool) (l : List α) :
    (pySortAsc lt l).Perm l := by
  simpa using pySortAsc_aux_perm lt l []

theorem pySortRev_perm {α : Type} (lt : α → α → Bool) (l : List α) :
    (pySortRev lt l).Perm l := by
  refine (List.reverse_perm _).trans ?_
  exact (pySortAsc_perm lt l.reverse).trans (List.reverse_perm l)

theorem Score.eqv_true_iff {s t : Score} (hs : 0 < s.denSq) (ht : 0 < t.denSq) :
    Score.eqv s t = true ↔ s.val = t.val := by
  unfold Score.eqv
  rw [Bool.and_eq_true, Bool.not_eq_true', Bool.not_eq_true']
  constructor
  · intro h
    exact Score.val_eq_of_not_lt hs ht h.1 h.2
  · intro h
    constructor
    · rw [Score.lt_false_iff hs ht]
      exact le_of_eq h.symm
    · rw [Score.lt_false_iff ht hs]
      exact le_of_eq h

theorem pyInsert_sorted (x : String × Score) (l : List (String × Score))
    (hx : 0 < x.2.denSq) (hl : ∀ p ∈ l, 0 < p.2.denSq)
    (hs : l.Pairwise (fun p q => p.2.val ≤ q.2.val)) :
    (pyInsert simLt x l).Pairwise (fun p q => p.2.val ≤ q.2.val) := by
  induction l with
  | nil => simp [pyInsert]
  | cons y ys ih =>
    have hy : 0 < y.2.denSq := hl y (by simp)
    have hys : ∀ p ∈ ys, 0 < p.2.denSq := fun p hp => hl p (by simp [hp])
    rw [List.pairwise_cons] at hs
    by_cases h : simLt x y = true
    · rw [pyInsert, if_pos h]
      have hxy : x.2.val ≤ y.2.val := ((Score.lt_iff_val x.2 y.2 hx hy).mp h).le
      rw [List.pairwise_cons]
      refine ⟨?_, List.pairwise_cons.mpr hs⟩
      intro b hb
      rcases List.mem_cons.mp hb with rfl | hb
      · exact hxy
      · exact hxy.trans (hs.1 b hb)
    · rw [pyInsert, if_neg (by simp [h])]
      have h' : Score.lt x.2 y.2 = false := by
        rw [Bool.eq_false_iff]
        exact h
      have hyx : y.2.val ≤ x.2.val := (Score.lt_false_iff hx hy).mp h'
      rw [List.pairwise_cons]
      refine ⟨?_, ih hys hs.2⟩
      intro b hb
      rcases (mem_pyInsert simLt x b ys).mp hb with rfl | hb
      · exact hyx
      · exact hs.1 b hb

theorem filter_pyInsert (s : Score) (x : String × Score) (l : List (String × Score))
    (hsc : 0 < s.denSq) (hx : 0 < x.2.denSq) (hl : ∀ p ∈ l, 0 < p.2.denSq)
    (hs : l.Pairwise (fun p q => p.2.val ≤ q.2.val)) :
    (pyInsert simLt x l).filter (fun p => Score.eqv s p.2) =
      l.filter (fun p => Score.eqv s p.2) ++ (if Score.eqv s x.2 then [x] else []) := by
  induction l with
  | nil =>
    by_cases h : Score.eqv s x.2 <;> simp [pyInsert, h]
  | cons y ys ih =>
    have hy : 0 < y.2.denSq := hl y (by simp)
    have hys : ∀ p ∈ ys, 0 < p.2.denSq := fun p hp => hl p (by simp [hp])
    rw [List.pairwise_cons] at hs
    by_cases h : simLt x y = true
    · rw [pyInsert, if_pos h]
      have hxy : x.2.val < y.2.val := (Score.lt_iff_val x.2 y.2 hx hy).mp h
      by_cases he : Score.eqv s x.2 = true
      · have hsx : s.val = x.2.val := (Score.eqv_true_iff hsc hx).mp he
        have hnone : ∀ p ∈ y :: ys, ¬ (Score.eqv s p.2 = true) := by
          intro p hp hcon
          have hp2 : 0 < p.2.denSq := hl p hp
          have hsp : s.val = p.2.val := (Score.eqv_true_iff hsc hp2).mp hcon
          have hyp : y.2.val ≤ p.2.val := by
            rcases List.mem_cons.mp hp with rfl | hp'
            · exact le_refl _
            · exact hs.1 p hp'
          linarith
        have hfil : (y :: ys).filter (fun p => Score.eqv s p.2) = [] := by
          rw [List.filter_eq_nil_iff]
          intro a ha
          simp only [Bool.not_eq_true]
          rw [Bool.eq_false_iff]
          exact hnone a ha
        rw [List.filter_cons_of_pos (by simpa using he), hfil, he, if_pos rfl]
        simp
      · have he' : Score.eqv s x.2 = false := Bool.eq_false_iff.mpr he
        rw [List.filter_cons_of_neg (by simpa using he), he', if_neg (by simp)]
        simp
    · rw [pyInsert, if_neg (by simp [h])]
      rw [List.filter_cons, List.filter_cons, ih hys hs.2]
      by_cases he : Score.eqv s y.2 = true <;> simp [he, List.append_assoc]

theorem pySortAsc_aux_good (l acc : List (String × Score))
    (hall : ∀ p ∈ acc ++ l, 0 < p.2.denSq) :
    ∀ p ∈ l.foldl (fun a x => pyInsert simLt x a) acc, 0 < p.2.denSq := by
  intro p hp
  have := (pySortAsc_aux_perm simLt l acc).mem_iff.mp hp
  exact hall p this

theorem pySortAsc_aux_sorted (l acc : List (String × Score))
    (hall : ∀ p ∈ acc ++ l, 0 < p.2.denSq)
    (hacc : acc.Pairwise (fun p q => p.2.val ≤ q.2.val)) :
    (l.foldl (fun a x => pyInsert simLt x a) acc).Pairwise
      (fun p q => p.2.val ≤ q.2.val) := by
  induction l generalizing acc with
  | nil => simpa using hacc
  | cons x xs ih =>
    have hx : 0 < x.2.denSq := hall x (by simp)
    have hacc' : ∀ p ∈ acc, 0 < p.2.denSq := fun p hp => hall p (by simp [hp])
    have hnew : ∀ p ∈ pyInsert simLt x acc ++ xs, 0 < p.2.denSq := by
      intro p hp
      rcases List.mem_append.mp hp with hp | hp
      · rcases (mem_pyInsert simLt x p acc).mp hp with rfl | hp
        · exact hx
        · exact hacc' p hp
      · exact hall p (by simp [hp])
    exact ih (pyInsert simLt x acc) hnew (pyInsert_sorted x acc hx hacc' hacc)

theorem pySortAsc_aux_stable (s : Score) (hsc : 0 < s.denSq)
    (l acc : List (String × Score))
    (hall : ∀ p ∈ acc ++ l, 0 < p.2.denSq)
    (hacc : acc.Pairwise (fun p q => p.2.val ≤ q.2.val)) :
    (l.foldl (fun a x => pyInsert simLt x a) acc).filter (fun p => Score.eqv s p.2) =
      acc.filter (fun p => Score.eqv s p.2) ++ l.filter (fun p => Score.eqv s p.2) := by
  induction l generalizing acc with
  | nil => simp
  | cons x xs ih =>
    have hx : 0 < x.2.denSq := hall x (by simp)
    have hacc' : ∀ p ∈ acc, 0 < p.2.denSq := fun p hp => hall p (by simp [hp])
    have hnew : ∀ p ∈ pyInsert simLt x acc ++ xs, 0 < p.2.denSq := by
      intro p hp
      rcases List.mem_append.mp hp with hp | hp
      · rcases (mem_pyInsert simLt x p acc).mp hp with rfl | hp
        · exact hx
        · exact hacc' p hp
      · exact hall p (by simp [hp])
    have step := ih (pyInsert simLt x acc) hnew (pyInsert_sorted x acc hx hacc' hacc)
    rw [List.foldl_cons, step, filter_pyInsert s x acc hsc hx hacc' hacc]
    rw [List.filter_cons]
    by_cases he : Score.eqv s x.2 = true <;> simp [he, List.append_assoc]

theorem pySortAsc_sorted (l : List (String × Score))
    (hall : ∀ p ∈ l, 0 < p.2.denSq) :
    (pySortAsc simLt l).Pairwise (fun p q => p.2.val ≤ q.2.val) := by
  exact pySortAsc_aux_sorted l [] (by simpa using hall) (by simp)

theorem pySortAsc_stable (s : Score) (hsc : 0 < s.denSq) (l : List (String × Score))
    (hall : ∀ p ∈ l, 0 < p.2.denSq) :
    (pySortAsc simLt l).filter (fun p => Score.eqv s p.2) =
      l.filter (fun p => Score.eqv s p.2) := by
  have := pySortAsc_aux_stable s hsc l [] (by simpa using hall) (by simp)
  simpa using this

theorem pySortRev_sorted (l : List (String × Score))
    (hall : ∀ p ∈ l, 0 < p.2.denSq) :
    (pySortRev simLt l).Pairwise (fun p q => q.2.val ≤ p.2.val) := by
  unfold pySortRev
  rw [List.pairwise_reverse]
  exact pySortAsc_sorted l.reverse (fun p hp => hall p (List.mem_reverse.mp hp))

theorem pySortRev_stable (s : Score) (hsc : 0 < s.denSq) (l : List (String × Score))
    (hall : ∀ p ∈ l, 0 < p.2.denSq) :
    (pySortRev simLt l).filter (fun p => Score.eqv s p.2) =
      l.filter (fun p => Score.eqv s p.2) := by
  unfold pySortRev
  rw [List.filter_reverse, pySortAsc_stable s hsc l.reverse
    (fun p hp => hall p (List.mem_reverse.mp hp)), ← List.filter_reverse,
    List.reverse_reverse]

/-- The sum of squares making up a squared norm is nonnegative. -/
theorem normSq_nonneg (v : List ℚ) : 0 ≤ normSq v := by
  unfold normSq dotQ
  induction v with
  | nil => simp
  | cons x xs ih =>
    simp only [List.zipWith_cons_cons, List.sum_cons]
    have := mul_self_nonneg x
    unfold dotQ at ih
    linarith

/-- C1 counterexample: against a zero-norm corpus vector the code's
cosine_similarity is NaN (numpy 0.0/0.0), not 0, and Python's sort leaves
the NaN-scored zero-vector entry ranked above a positive-similarity entry
("a" scores 1, yet "z" comes first). -/
theorem C1_counterexample :
    (cosine_similarity [1, 0] [0, 0]).isNaN = true
    ∧ rank [1, 0] [("z", [0, 0]), ("a", [1, 0])] 2 =
        [("z", ⟨0, 0⟩), ("a", ⟨1, 1⟩)]
    ∧ Score.lt ⟨0, 1⟩ (cosine_similarity [1, 0] [1, 0]) = true := by
  refine ⟨?_, ?_, ?_⟩
  · simp [cosine_similarity, Score.isNaN, dotQ, normSq]
  · simp [rank, pySortRev, pySortAsc, simsOf, pyInsert, simLt, Score.lt,
      cosine_similarity, dotQ, normSq]
  · simp [Score.lt, cosine_similarity, dotQ, normSq]

/-- C1 (amended): when either vector has zero norm, the similarity the
code computes is NaN (the division 0.0/0.0), not 0; numpy raises no
exception there (the model's scoring is total), but a NaN-scored
zero-vector entry can be ranked above a positive-similarity entry. -/
theorem C1_theorem (v1 v2 : List ℚ) (h : normSq v1 = 0 ∨ normSq v2 = 0) :
    (cosine_similarity v1 v2).isNaN = true := by
  unfold cosine_similarity Score.isNaN
  rcases h with h | h <;> simp [h]

/-- C1 witness: the amended statement evaluated at a concrete zero-norm
second vector. -/
theorem C1_witness :
    (normSq [(1:ℚ), 0] = 0 ∨ normSq [(0:ℚ), 0] = 0)
    ∧ (cosine_similarity [1, 0] [0, 0]).isNaN = true := by
  have h : normSq [(0:ℚ), 0] = 0 := by norm_num [normSq, dotQ]
  exact ⟨Or.inr h, C1_theorem [1, 0] [0, 0] (Or.inr h)⟩

/-- C2 counterexample: a whitespace-only query is not rejected; the search
succeeds (returning the ok value, not any error) and the provider is
called once with the untrimmed query "   ". -/
theorem C2_counterexample :
    semantic_search envOneEntry "   " 5 =
      ⟨.ok [], .stored [("a", [1])], [.embed ["   "]]⟩ := by
  rfl

/-- C2 (amended): semantic_search performs no query validation: for every
query string, whitespace-only included, once the import and credential
checks pass and a nonempty cache loads, exactly one provider call is made
and it carries the untrimmed query; no bad-request signal exists. -/
theorem C2_theorem (env : Env) (q : String) (k : ℕ) (m : List (String × List ℚ))
    (h1 : env.openai_available = true) (h2 : truthyS env.api_key = true)
    (h3 : env.cache = .stored m) (h4 : m.isEmpty = false) :
    (semantic_search env q k).calls = [.embed [q]] := by
  unfold semantic_search
  simp only [h1, h2, h3, load_embeddings, falsyM, h4]
  norm_num
  unfold afterCache
  cases hb : env.embedBatch [q] with
  | error msg => simp
  | ok qvecs =>
    cases qvecs with
    | nil => simp
    | cons qv qrest =>
      cases hc : env.clipsResult with
      | error msg => simp
      | ok clips => simp

/-- C2 witness: the amended statement at the concrete world and the
whitespace query. -/
theorem C2_witness :
    envOneEntry.openai_available = true
    ∧ truthyS envOneEntry.api_key = true
    ∧ envOneEntry.cache = .stored [("a", [1])]
    ∧ ([(("a" : String), [(1:ℚ)])].isEmpty = false)
    ∧ (semantic_search envOneEntry "   " 5).calls = [.embed ["   "]] :=
  ⟨rfl, rfl, rfl, rfl, C2_theorem envOneEntry "   " 5 [("a", [1])] rfl rfl rfl rfl⟩

/-- C3 counterexample: with a corrupt persisted cache, the query path does
not rebuild: load raises the JSON decode error, semantic_search propagates
it, no provider call happens, and the corrupt file stays in place. -/
theorem C3_counterexample :
    semantic_search envCorrupt "x" 5 = ⟨.error .jsonDecode, .corrupt, []⟩ := by
  rfl

/-- C3 (amended): only a missing embeddings file is treated as absent; a
cache file that exists but cannot be parsed makes load_embeddings raise,
and semantic_search propagates that error to the caller without
triggering a rebuild or touching the cache. -/
theorem C3_theorem (env : Env) (q : String) (k : ℕ)
    (h1 : env.openai_available = true) (h2 : truthyS env.api_key = true)
    (h3 : env.cache = .corrupt) :
    load_embeddings env.cache = .error .jsonDecode
    ∧ semantic_search env q k = ⟨.error .jsonDecode, env.cache, []⟩ := by
  constructor
  · rw [h3]
    rfl
  · unfold semantic_search
    simp [h1, h2, h3, load_embeddings]

/-- C3 witness: the amended statement at the concrete corrupt world. -/
theorem C3_witness :
    envCorrupt.openai_available = true
    ∧ truthyS envCorrupt.api_key = true
    ∧ envCorrupt.cache = .corrupt
    ∧ load_embeddings envCorrupt.cache = .error .jsonDecode
    ∧ semantic_search envCorrupt "x" 5 = ⟨.error .jsonDecode, envCorrupt.cache, []⟩ := by
  refine ⟨rfl, rfl, rfl, ?_, ?_⟩
  · exact (C3_theorem envCorrupt "x" 5 rfl rfl rfl).1
  · exact (C3_theorem envCorrupt "x" 5 rfl rfl rfl).2

/-- C4 counterexample: the game id field is present (value 7) yet its
segment is "Game 7", which contains no colon at all, so it is not of the
"Label: value" shape the claim asserts for every present field. -/
theorem C4_counterexample :
    get_clip_text_representation { game_id := some 7 } = "Game 7"
    ∧ truthyI (some (7 : Int)) = true
    ∧ ("Game 7".data.contains ':') = false := by
  refine ⟨by rfl, by rfl, by rfl⟩

/-- C4 (amended): the projection renders each present field in the fixed
order and joins the segments with " | ", but five fields deviate from the
"Label: value" shape: game id renders as "Game v", opponent as "vs v",
quarter as "Qv", possession as "Possession v" and points as "v points";
the remaining fields use "Label: value", with the trigger falling back to
the legacy action_trigger field. -/
theorem C4_theorem (clip : Clip) :
    get_clip_text_representation clip = projectSegments clip :=
  project_eq_segments clip

/-- C7 (confirmed): saving a mapping and loading it back returns exactly
that mapping (persistence is modelled at mapping granularity; the JSON
byte encoding of float lists is an implementation detail the spec leaves
open). -/
theorem C7_theorem (m : List (String × List ℚ)) (_h : m ≠ []) :
    load_embeddings (save_embeddings m) = .ok (some m) := by
  rfl

/-- C7 witness: the round trip at a concrete two-vector mapping. -/
theorem C7_witness :
    ([(("a" : String), [(1:ℚ), 2]), ("b", [3, 4])] ≠ ([] : List (String × List ℚ)))
    ∧ load_embeddings (save_embeddings [(("a" : String), [(1:ℚ), 2]), ("b", [3, 4])]) =
        .ok (some [(("a" : String), [(1:ℚ), 2]), ("b", [3, 4])]) := by
  refine ⟨by simp, C7_theorem _ (by simp)⟩

/-- C9 (confirmed): the projector omits every falsy-valued field, not only
absent ones: replacing any 0-valued integer field or empty-string text
field by an absent field leaves the projected text unchanged. -/
theorem C9_theorem (c : Clip) :
    get_clip_text_representation (normalizeClip c) = get_clip_text_representation c := by
  rw [project_eq_segments, project_eq_segments]
  unfold projectSegments clipSegments normalizeClip
  simp only [segS, segI, orTruthyS_normStr, truthyS_normStr, getD_normStr,
    truthyI_normInt, getD_normInt]

/-- C6 (confirmed): when the store fetch or the batched provider call
fails during rebuild_embeddings, the try/except reports success false with
the exception text and the previously persisted cache is left untouched:
save is never reached, so no partial cache is written. -/
theorem C6_theorem (env : Env)
    (h1 : env.openai_available = true) (h2 : truthyS env.api_key = true) :
    (∀ msg, env.clipsResult = .error msg →
        rebuild_embeddings env = (.failure msg, env.cache, []))
    ∧ (∀ clips msg, env.clipsResult = .ok clips → clips ≠ [] →
        env.embedBatch (clips.map get_clip_text_representation) = .error msg →
        rebuild_embeddings env =
          (.failure msg, env.cache,
            [.embed (clips.map get_clip_text_representation)])) := by
  constructor
  · intro msg hm
    unfold rebuild_embeddings generate_embeddings_for_all_clips
    simp [h1, h2, hm, errString]
  · intro clips msg hclips hne hb
    unfold rebuild_embeddings generate_embeddings_for_all_clips
    have hni : (clips.map get_clip_text_representation).isEmpty = false := by
      cases clips with
      | nil => exact absurd rfl hne
      | cons c cs => rfl
    simp [h1, h2, hclips, hni, hb, errString]

/-- C6 witness: the store-failure arm at the concrete world whose
fetch_clips raises "db down"; the prior one-entry cache is unchanged. -/
theorem C6_witness :
    envStoreDown.openai_available = true
    ∧ truthyS envStoreDown.api_key = true
    ∧ envStoreDown.clipsResult = .error "db down"
    ∧ rebuild_embeddings envStoreDown =
        (.failure "db down", envStoreDown.cache, []) := by
  refine ⟨rfl, rfl, rfl, (C6_theorem envStoreDown rfl rfl).1 "db down" rfl⟩

/-- C8 (confirmed): on the valid-cache search path every returned result
is a record currently in the store (the ranked identifier resolved in the
clips-by-id dict); identifiers that do not resolve are dropped without any
error, the search still returning an ok value. -/
theorem C8_theorem (env : Env) (q : String) (k : ℕ) (m : List (String × List ℚ))
    (clips : List Clip) (qv : List ℚ) (qrest : List (List ℚ))
    (h1 : env.openai_available = true) (h2 : truthyS env.api_key = true)
    (h3 : env.cache = .stored m) (h4 : m.isEmpty = false)
    (h5 : env.clipsResult = .ok clips)
    (h6 : env.embedBatch [q] = .ok (qv :: qrest)) :
    ∃ rs, (semantic_search env q k).result = .ok rs
      ∧ ∀ r ∈ rs, r.clip ∈ clips ∧ r.clip.id ∈ clips.map (fun c => c.id) := by
  unfold semantic_search
  simp only [h1, h2, h3, load_embeddings, falsyM, h4]
  norm_num
  unfold afterCache
  rw [h6, h5]
  refine ⟨_, rfl, ?_⟩
  intro r hr
  rcases List.mem_filterMap.mp hr with ⟨p, hp, hmap⟩
  rcases Option.map_eq_some'.mp hmap with ⟨c, hc, hrc⟩
  obtain ⟨hne, heq⟩ := List.mem_getLast?_eq_getLast (Option.mem_def.mpr hc)
  have hcmem : c ∈ clips.filter (fun c' => c'.id == p.1) := by
    rw [heq]
    exact List.getLast_mem hne
  have hcm : c ∈ clips := List.mem_of_mem_filter hcmem
  have hrcl : r.clip = c := by rw [← hrc]
  rw [hrcl]
  exact ⟨hcm, ⟨c, hcm, rfl⟩⟩

/-- C8 witness: the orphan world: the cache ranks "ghost" and "a", the
store only holds "a"; the search returns ok and only store records. -/
theorem C8_witness :
    envOrphan.openai_available = true
    ∧ truthyS envOrphan.api_key = true
    ∧ envOrphan.cache = .stored [("ghost", [1]), ("a", [1])]
    ∧ ([(("ghost" : String), [(1:ℚ)]), ("a", [1])].isEmpty = false)
    ∧ envOrphan.clipsResult = .ok [clipA]
    ∧ envOrphan.embedBatch ["made shots"] = .ok [[1]]
    ∧ ∃ rs, (semantic_search envOrphan "made shots" 5).result = .ok rs
        ∧ ∀ r ∈ rs, r.clip ∈ [clipA] ∧ r.clip.id ∈ [clipA].map (fun c => c.id) := by
  refine ⟨rfl, rfl, rfl, rfl, rfl, rfl, ?_⟩
  exact C8_theorem envOrphan "made shots" 5 [("ghost", [1]), ("a", [1])] [clipA]
    [1] [] rfl rfl rfl rfl rfl rfl

/-- C10 (confirmed): a persisted cache holding the empty mapping is falsy
to the `if not embeddings` check, so search behaves exactly as with an
absent cache: same returned value and same provider calls; and whenever
the regeneration succeeds, the rebuilt mapping is saved as the new cache
before the query is answered, with the batch call preceding the query
embedding call. -/
theorem C10_theorem (env : Env) (q : String) (k : ℕ)
    (h : env.cache = .stored []) :
    ((semantic_search env q k).result =
        (semantic_search { env with cache := .absent } q k).result
      ∧ (semantic_search env q k).calls =
        (semantic_search { env with cache := .absent } q k).calls)
    ∧ (∀ m calls, generate_embeddings_for_all_clips env = (.ok m, calls) →
        (semantic_search env q k).cache = save_embeddings m
        ∧ (semantic_search env q k).calls = calls ++ [.embed [q]]) := by
  have havail : ({ env with cache := .absent } : Env).openai_available =
      env.openai_available := rfl
  have hkey : ({ env with cache := .absent } : Env).api_key = env.api_key := rfl
  have hgen : generate_embeddings_for_all_clips { env with cache := .absent } =
      generate_embeddings_for_all_clips env := by
    unfold generate_embeddings_for_all_clips
    rfl
  have haft : ∀ a b c, afterCache { env with cache := .absent } q k a b c =
      afterCache env q k a b c := by
    intro a b c
    unfold afterCache
    rfl
  constructor
  · by_cases h1 : env.openai_available = false
    · constructor <;> simp [semantic_search, h1]
    · by_cases h2 : truthyS env.api_key = false
      · constructor <;> simp [semantic_search, h1, h2]
      · unfold semantic_search
        rw [havail, hkey, h]
        simp only [load_embeddings, falsyM, List.isEmpty_nil, if_neg h1, if_neg h2,
          hgen, haft]
        cases hg : generate_embeddings_for_all_clips env with
        | mk res calls =>
          cases res with
          | error e => exact ⟨rfl, rfl⟩
          | ok m => exact ⟨rfl, rfl⟩
  · intro m calls hg
    have h1 : env.openai_available = true := by
      by_contra hcon
      have : env.openai_available = false := by
        cases henv : env.openai_available
        · rfl
        · exact absurd henv hcon
      rw [generate_embeddings_for_all_clips, if_pos this] at hg
      cases hg
    have h2 : truthyS env.api_key = true := by
      by_contra hcon
      have hf : truthyS env.api_key = false := by
        cases henv : truthyS env.api_key
        · rfl
        · exact absurd henv hcon
      rw [generate_embeddings_for_all_clips, if_neg (by rw [h1]; intro hx; cases hx),
        if_pos hf] at hg
      cases hg
    unfold semantic_search
    rw [h]
    simp only [load_embeddings, falsyM, List.isEmpty_nil, h1, h2]
    norm_num
    rw [hg]
    unfold afterCache
    cases hb : env.embedBatch [q] with
    | error msg => exact ⟨rfl, rfl⟩
    | ok qvecs =>
      cases qvecs with
      | nil => exact ⟨rfl, rfl⟩
      | cons qv qrest =>
        cases hc : env.clipsResult with
        | error msg => exact ⟨rfl, rfl⟩
        | ok clips => exact ⟨rfl, rfl⟩

/-- C10 witness: the empty-mapping-cache world behaves like the absent
one, and its successful rebuild saves one embedding for the store record
and answers after the batch call and the query call. -/
theorem C10_witness :
    envEmptyCache.cache = .stored []
    ∧ ((semantic_search envEmptyCache "q" 5).result =
          (semantic_search { envEmptyCache with cache := .absent } "q" 5).result
        ∧ (semantic_search envEmptyCache "q" 5).calls =
          (semantic_search { envEmptyCache with cache := .absent } "q" 5).calls)
    ∧ (∀ m calls,
        generate_embeddings_for_all_clips envEmptyCache = (.ok m, calls) →
        (semantic_search envEmptyCache "q" 5).cache = save_embeddings m
        ∧ (semantic_search envEmptyCache "q" 5).calls = calls ++ [.embed ["q"]]) := by
  refine ⟨rfl, ?_, ?_⟩
  · exact (C10_theorem envEmptyCache "q" 5 rfl).1
  · exact (C10_theorem envEmptyCache "q" 5 rfl).2

/-- C5 counterexample: with a zero corpus vector the returned ordering is
not strictly descending with insertion-order ties: the output is
[("a", 1), ("z", NaN)] and the adjacent scores are neither strictly
ordered (NaN compares false both ways) nor equal, though the length and
full-corpus parts of the claim do hold here. -/
theorem C5_counterexample :
    rank [1, 0] [("a", [1, 0]), ("z", [0, 0])] 2 =
      [("a", ⟨1, 1⟩), ("z", ⟨0, 0⟩)]
    ∧ Score.lt (⟨0, 0⟩ : Score) (⟨1, 1⟩ : Score) = false
    ∧ Score.lt (⟨1, 1⟩ : Score) (⟨0, 0⟩ : Score) = false
    ∧ (⟨0, 0⟩ : Score) ≠ (⟨1, 1⟩ : Score) := by
  refine ⟨?_, ?_, ?_, ?_⟩
  · simp [rank, pySortRev, pySortAsc, simsOf, pyInsert, simLt, Score.lt,
      cosine_similarity, dotQ, normSq]
  · simp [Score.lt]
  · simp [Score.lt]
  · intro hcon
    have : (0 : ℚ) = 1 := congrArg Score.denSq hcon
    norm_num at this

/-- C5 (amended, for nonzero-norm query and corpus vectors): the ranking
returns the first top_k entries of the Python stable reverse sort of the
similarity list: its length is min top_k |corpus|; the sorted list is a
permutation of the scored corpus; consecutive returned scores are
descending (never strictly ascending); within any class of equal score
values the corpus iteration order is preserved (tie-breaking by insertion
order); and top_k beyond the corpus size returns the whole scored corpus,
not an error. -/
theorem C5_theorem (qv : List ℚ) (corpus : List (String × List ℚ)) (k : ℕ)
    (hq : normSq qv ≠ 0) (hc : ∀ p ∈ corpus, normSq p.2 ≠ 0) :
    (rank qv corpus k).length = min k corpus.length
    ∧ rank qv corpus k = (pySortRev simLt (simsOf qv corpus)).take k
    ∧ (pySortRev simLt (simsOf qv corpus)).Perm (simsOf qv corpus)
    ∧ (rank qv corpus k).Pairwise (fun p p' => Score.lt p.2 p'.2 = false)
    ∧ (∀ s : Score, 0 < s.denSq →
        (pySortRev simLt (simsOf qv corpus)).filter (fun p => Score.eqv s p.2) =
          (simsOf qv corpus).filter (fun p => Score.eqv s p.2))
    ∧ (corpus.length ≤ k → (rank qv corpus k).Perm (simsOf qv corpus)) := by
  have hgood : ∀ p ∈ simsOf qv corpus, 0 < p.2.denSq := by
    intro p hp
    rcases List.mem_map.mp hp with ⟨e, he, rfl⟩
    have h1 : 0 < normSq qv := lt_of_le_of_ne (normSq_nonneg qv) (Ne.symm hq)
    have h2 : 0 < normSq e.2 := lt_of_le_of_ne (normSq_nonneg e.2) (Ne.symm (hc e he))
    exact mul_pos h1 h2
  have hperm : (pySortRev simLt (simsOf qv corpus)).Perm (simsOf qv corpus) :=
    pySortRev_perm simLt (simsOf qv corpus)
  have hlen : (simsOf qv corpus).length = corpus.length := List.length_map _ _
  have hgood' : ∀ p ∈ pySortRev simLt (simsOf qv corpus), 0 < p.2.denSq :=
    fun p hp => hgood p (hperm.mem_iff.mp hp)
  have hsorted := pySortRev_sorted (simsOf qv corpus) hgood
  refine ⟨?_, rfl, hperm, ?_, ?_, ?_⟩
  · unfold rank
    rw [List.length_take, hperm.length_eq, hlen]
  · have hpw : (pySortRev simLt (simsOf qv corpus)).Pairwise
        (fun p p' => Score.lt p.2 p'.2 = false) := by
      refine List.Pairwise.imp_of_mem ?_ hsorted
      intro a b ha hb hab
      exact (Score.lt_false_iff (hgood' a ha) (hgood' b hb)).mpr hab
    exact hpw.sublist (List.take_sublist k _)
  · intro s hs
    exact pySortRev_stable s hs (simsOf qv corpus) hgood
  · intro hk
    unfold rank
    rw [List.take_of_length_le (by rw [hperm.length_eq, hlen]; exact hk)]
    exact hperm

/-- C5 witness: the amended statement for the unit query and a two-entry
corpus whose vectors are nonzero, with top_k = 3 exceeding the corpus. -/
theorem C5_witness :
    normSq [(1:ℚ)] ≠ 0
    ∧ (∀ p ∈ [(("a" : String), [(1:ℚ)]), ("b", [2])], normSq p.2 ≠ 0)
    ∧ ((rank [(1:ℚ)] [("a", [1]), ("b", [2])] 3).length =
          min 3 ([(("a" : String), [(1:ℚ)]), ("b", [2])].length)
        ∧ rank [(1:ℚ)] [("a", [1]), ("b", [2])] 3 =
            (pySortRev simLt (simsOf [1] [("a", [1]), ("b", [2])])).take 3
        ∧ (pySortRev simLt (simsOf [1] [("a", [1]), ("b", [2])])).Perm
            (simsOf [1] [("a", [1]), ("b", [2])])
        ∧ (rank [(1:ℚ)] [("a", [1]), ("b", [2])] 3).Pairwise
            (fun p p' => Score.lt p.2 p'.2 = false)
        ∧ (∀ s : Score, 0 < s.denSq →
            (pySortRev simLt (simsOf [1] [("a", [1]), ("b", [2])])).filter
                (fun p => Score.eqv s p.2) =
              (simsOf [1] [("a", [1]), ("b", [2])]).filter
                (fun p => Score.eqv s p.2))
        ∧ ([(("a" : String), [(1:ℚ)]), ("b", [2])].length ≤ 3 →
            (rank [(1:ℚ)] [("a", [1]), ("b", [2])] 3).Perm
              (simsOf [1] [("a", [1]), ("b", [2])]))) := by
  have h1 : normSq [(1:ℚ)] ≠ 0 := by norm_num [normSq, dotQ]
  have h2 : ∀ p ∈ [(("a" : String), [(1:ℚ)]), ("b", [2])], normSq p.2 ≠ 0 := by
    intro p hp
    rcases List.mem_cons.mp hp with rfl | hp
    · norm_num [normSq, dotQ]
    · rcases List.mem_cons.mp hp with rfl | hp
      · norm_num [normSq, dotQ]
      · simp at hp
  exact ⟨h1, h2, C5_theorem [1] [("a", [1]), ("b", [2])] 3 h1 h2⟩
